import Mathlib

/-!
Verification development for the Ayrton 3D-viewer export core.

The definitions below are a shallow embedding of the scene/physical-group
data model and the export pipeline of the repository:

* `PhysicalGroup` and its operations follow
  `src/unnamed/part_005` (class `PhysicalGroup`).
* `Model`, `Node`, `Mesh` and the mesh-removal / enumeration operations
  follow `src/Online3DViewer/source/engine/model/model.js`.
* The STL and GLB encoders follow
  `src/Online3DViewer/source/engine/export/exporterbase.js` and the
  `ExporterGltf.ExportBinaryContent` function.
* Packaging follows `src/Online3DViewer/source/website/exportdialog.js`.

JavaScript `Set` objects are modelled as duplicate-free lists in insertion
order and `Map` objects as association lists in insertion order; both
mirror the iteration order guarantees of the JS runtime.
-/

set_option maxHeartbeats 1600000
set_option maxRecDepth 16384

namespace Ayrton

/-- A mesh-instance key: (owning node identity, mesh index), the pair that
`MeshInstanceId.GetKey` serialises. -/
abbrev MeshKey := Nat × Nat

/-- Lookup in an association list, first match wins (JS `Map.get`). -/
def mapGet : List (MeshKey × List Nat) → MeshKey → Option (List Nat)
  | [], _ => none
  | (k0, v) :: rest, k => if k0 = k then some v else mapGet rest k

/-- JS `Map.set`: replace the value in place when the key exists, append
otherwise. -/
def mapSet : List (MeshKey × List Nat) → MeshKey → List Nat → List (MeshKey × List Nat)
  | [], k, v => [(k, v)]
  | (k0, v0) :: rest, k, v =>
      if k0 = k then (k0, v) :: rest else (k0, v0) :: mapSet rest k v

/-- JS `Map.delete`: drop the entry with the given key. -/
def mapDelete : List (MeshKey × List Nat) → MeshKey → List (MeshKey × List Nat)
  | [], _ => []
  | (k0, v) :: rest, k =>
      if k0 = k then mapDelete rest k else (k0, v) :: mapDelete rest k

/-- JS `Set.add`: append the element when absent, keep the set otherwise. -/
def setAdd (s : List MeshKey) (k : MeshKey) : List MeshKey :=
  if k ∈ s then s else s ++ [k]

/-- The face-array initialisation both `AddMesh` and `AddMeshWithIndex`
perform: `if (!this.meshFaces.has(meshKey)) this.meshFaces.set(meshKey, [])`. -/
def ensureEntry (m : List (MeshKey × List Nat)) (k : MeshKey) : List (MeshKey × List Nat) :=
  if (mapGet m k).isSome then m else m ++ [(k, [])]

/-- The face-insertion step of `AddMeshWithIndex`: push the face index on the
entry unless it is already present. -/
def addFace (m : List (MeshKey × List Nat)) (k : MeshKey) (f : Nat) : List (MeshKey × List Nat) :=
  let withEntry := ensureEntry m k
  let faces := (mapGet withEntry k).getD []
  if f ∈ faces then withEntry else mapSet withEntry k (faces ++ [f])

/-- Shallow embedding of `PhysicalGroup` (src/unnamed/part_005): a name, an
optional colour, the touched-instance key set and the per-instance face-index
map. -/
structure PhysicalGroup where
  name : String
  color : Option Nat
  meshes : List MeshKey
  meshFaces : List (MeshKey × List Nat)
deriving DecidableEq

/-- `new PhysicalGroup(name)`. -/
def PhysicalGroup.init (name : String) : PhysicalGroup :=
  { name := name, color := none, meshes := [], meshFaces := [] }

/-- `PhysicalGroup.AddMesh`. -/
def PhysicalGroup.addMesh (g : PhysicalGroup) (k : MeshKey) : PhysicalGroup :=
  { g with meshes := setAdd g.meshes k, meshFaces := ensureEntry g.meshFaces k }

/-- `PhysicalGroup.AddMeshWithIndex`. -/
def PhysicalGroup.addMeshWithIndex (g : PhysicalGroup) (k : MeshKey) (f : Nat) : PhysicalGroup :=
  { g with meshes := setAdd g.meshes k, meshFaces := addFace g.meshFaces k f }

/-- `PhysicalGroup.RemoveMesh`. -/
def PhysicalGroup.removeMesh (g : PhysicalGroup) (k : MeshKey) : PhysicalGroup :=
  { g with meshes := g.meshes.filter (fun k0 => k0 ≠ k), meshFaces := mapDelete g.meshFaces k }

/-- `PhysicalGroup.ContainsMesh`. -/
def PhysicalGroup.containsMesh (g : PhysicalGroup) (k : MeshKey) : Bool :=
  g.meshes.contains k

/-- `PhysicalGroup.GetMeshFaceIndices`: the stored list, `[]` when absent. -/
def PhysicalGroup.getMeshFaceIndices (g : PhysicalGroup) (k : MeshKey) : List Nat :=
  (mapGet g.meshFaces k).getD []

/-- `PhysicalGroup.Clear`. -/
def PhysicalGroup.clear (g : PhysicalGroup) : PhysicalGroup :=
  { g with meshes := [], meshFaces := [] }

/-- `PhysicalGroup.SetName`. -/
def PhysicalGroup.setName (g : PhysicalGroup) (n : String) : PhysicalGroup :=
  { g with name := n }

/-- `PhysicalGroup.SetColor`. -/
def PhysicalGroup.setColor (g : PhysicalGroup) (c : Option Nat) : PhysicalGroup :=
  { g with color := c }

/-- `PhysicalGroup.MeshCount`. -/
def PhysicalGroup.meshCount (g : PhysicalGroup) : Nat :=
  g.meshes.length

/-- `PhysicalGroup.TotalFaceCount`. -/
def PhysicalGroup.totalFaceCount (g : PhysicalGroup) : Nat :=
  (g.meshFaces.map (fun p => p.2.length)).sum

/-- States of a `PhysicalGroup` reachable through its public operations. -/
inductive PhysicalGroup.Reachable : PhysicalGroup → Prop
  | init (name : String) : Reachable (PhysicalGroup.init name)
  | addMesh {g : PhysicalGroup} (k : MeshKey) :
      Reachable g → Reachable (g.addMesh k)
  | addMeshWithIndex {g : PhysicalGroup} (k : MeshKey) (f : Nat) :
      Reachable g → Reachable (g.addMeshWithIndex k f)
  | removeMesh {g : PhysicalGroup} (k : MeshKey) :
      Reachable g → Reachable (g.removeMesh k)
  | clear {g : PhysicalGroup} : Reachable g → Reachable g.clear
  | setName {g : PhysicalGroup} (n : String) : Reachable g → Reachable (g.setName n)
  | setColor {g : PhysicalGroup} (c : Option Nat) : Reachable g → Reachable (g.setColor c)

/-- Rational 3-vector used for vertex positions and normals. -/
structure Vec3 where
  x : ℚ
  y : ℚ
  z : ℚ
deriving DecidableEq

/-- A triangle record, the eight arguments of `Mesh.AddTriangle`. -/
structure Triangle where
  v0 : Nat
  v1 : Nat
  v2 : Nat
  n0 : Nat
  n1 : Nat
  n2 : Nat
  mat : Nat
  curve : Nat
deriving DecidableEq

/-- Modelled from the spec: the mesh geometry store (source `mesh.js` is not
in the source tree): ordered vertex positions, optional normals and UVs, and
an ordered triangle list. -/
structure Mesh where
  vertices : List Vec3
  normals : List Vec3
  uvs : List (ℚ × ℚ)
  triangles : List Triangle
deriving DecidableEq

/-- Modelled from the spec: a scene-graph node (source `node.js` is not in
the source tree): unique identity, an ordered list of mesh-slot indices into
the model's mesh list, and owned children. -/
inductive Node where
  | mk (nodeId : Nat) (meshIndices : List Nat) (children : List Node)

/-- Node identity accessor (`Node.GetId`). -/
def Node.nodeId : Node → Nat
  | .mk i _ _ => i

/-- Mesh-slot list accessor (`Node.GetMeshIndices`). -/
def Node.meshIndices : Node → List Nat
  | .mk _ ms _ => ms

/-- Child list accessor (`Node.GetChildNodes`). -/
def Node.children : Node → List Node
  | .mk _ _ cs => cs

mutual

/-- The `(nodeId, meshIndex)` pairs visited by `Model.EnumerateMeshInstances`:
pre-order node traversal, each node contributing its mesh-slot indices. -/
def Node.instanceKeys : Node → List MeshKey
  | .mk i ms cs => ms.map (fun m => (i, m)) ++ Node.forestInstanceKeys cs

/-- Instance keys of a forest of nodes, in order. -/
def Node.forestInstanceKeys : List Node → List MeshKey
  | [] => []
  | c :: cs => c.instanceKeys ++ Node.forestInstanceKeys cs

end

/-- The per-node mesh-index rewrite performed by `Model.RemoveMesh`: slots
equal to the removed index are spliced out, larger slots are decremented. -/
def removeShift (idx : Nat) (ms : List Nat) : List Nat :=
  (ms.filter (fun m => m ≠ idx)).map (fun m => if idx < m then m - 1 else m)

mutual

/-- The node-tree part of `Model.RemoveMesh`, applied over the whole tree by
`this.root.Enumerate`. -/
def Node.removeMeshIdx (idx : Nat) : Node → Node
  | .mk i ms cs => .mk i (removeShift idx ms) (Node.forestRemoveMeshIdx idx cs)

/-- `Node.removeMeshIdx` mapped over a forest. -/
def Node.forestRemoveMeshIdx (idx : Nat) : List Node → List Node
  | [] => []
  | c :: cs => c.removeMeshIdx idx :: Node.forestRemoveMeshIdx idx cs

end

/-- Shallow embedding of `Model`
(src/Online3DViewer/source/engine/model/model.js): root node, material list
(materials abstracted to identifiers), mesh list, physical-group list. -/
structure Model where
  root : Node
  materials : List Nat
  meshes : List Mesh
  physicalGroups : List PhysicalGroup

/-- `Model.EnumerateMeshInstances` reduced to the keys it visits. -/
def Model.instanceKeys (m : Model) : List MeshKey :=
  m.root.instanceKeys

/-- `Model.MeshInstanceCount`: computed by traversal, one count per visited
(node, mesh-slot) pair. -/
def Model.meshInstanceCount (m : Model) : Nat :=
  m.instanceKeys.length

/-- `Model.GetMesh` with the out-of-range result defaulted to an empty mesh. -/
def Model.meshAt (m : Model) (i : Nat) : Mesh :=
  m.meshes.getD i { vertices := [], normals := [], uvs := [], triangles := [] }

/-- `Model.TriangleCount`: the sum, over enumerated instances, of the
instance mesh's triangle count. -/
def Model.triangleCount (m : Model) : Nat :=
  (m.instanceKeys.map (fun k => (m.meshAt k.2).triangles.length)).sum

/-- `Model.RemoveMesh`: splice the mesh out of the mesh list and rewrite
every node's mesh-slot indices. -/
def Model.removeMesh (m : Model) (idx : Nat) : Model :=
  { m with meshes := m.meshes.eraseIdx idx, root := m.root.removeMeshIdx idx }

/-- `Model.AddPhysicalGroup`: unconditionally creates and appends the group
(no duplicate-name check is performed). -/
def Model.addPhysicalGroup (m : Model) (name : String) : Model × PhysicalGroup :=
  let g := PhysicalGroup.init name
  ({ m with physicalGroups := m.physicalGroups ++ [g] }, g)

/-- `Model.FindPhysicalGroupByName`: first group whose name matches exactly
(case-sensitive). -/
def Model.findPhysicalGroupByName (m : Model) (name : String) : Option PhysicalGroup :=
  m.physicalGroups.find? (fun g => g.name == name)

/-- All `(MeshInstanceKey, local triangle index)` pairs of the model: the
full triangle set `T` of the partition algorithm. -/
def Model.allTriPairs (m : Model) : List (MeshKey × Nat) :=
  m.instanceKeys.flatMap (fun k =>
    (List.range (m.meshAt k.2).triangles.length).map (fun i => (k, i)))

/-- Modelled from the spec: one write call of the binary writer (source
`io/binarywriter.js` is not in the source tree). Field widths follow the
spec: 1-byte characters, little-endian 2- and 4-byte unsigned integers,
4-byte IEEE-754 single-precision floats (whose bit pattern is irrelevant to
every layout claim and is therefore carried as the written rational value),
and raw buffers written byte-for-byte. -/
inductive Cell where
  | u8 (b : Nat)
  | u16 (v : Nat)
  | u32 (v : Nat)
  | f32 (v : ℚ)
  | buf (bs : List Nat)
deriving DecidableEq

/-- Byte width of one write. -/
def Cell.size : Cell → Nat
  | .u8 _ => 1
  | .u16 _ => 2
  | .u32 _ => 4
  | .f32 _ => 4
  | .buf bs => bs.length

/-- `WriteUnsignedInteger32` truncates to 32 bits. -/
def w32 (v : Nat) : Cell := Cell.u32 (v % 4294967296)

/-- `WriteUnsignedInteger16` truncates to 16 bits. -/
def w16 (v : Nat) : Cell := Cell.u16 (v % 65536)

/-- `WriteUnsignedCharacter8` truncates to 8 bits. -/
def w8 (v : Nat) : Cell := Cell.u8 (v % 256)

/-- Total byte length of a write sequence. -/
def byteLength (cs : List Cell) : Nat :=
  (cs.map Cell.size).sum

/-- Modelled from the spec: one record of the export filter's
`EnumerateTrianglesWithNormals` callback (source `exportermodel.js` is not in
the source tree): three world-space vertex positions and a face normal. -/
structure StlTri where
  v0 : Vec3
  v1 : Vec3
  v2 : Vec3
  normal : Vec3
deriving DecidableEq

/-- The 50-byte binary record `ExporterStl.ExportBinaryForModel` writes per
triangle: 3 normal floats, 9 vertex floats, and a zero attribute byte
count. -/
def stlTriRecord (t : StlTri) : List Cell :=
  [Cell.f32 t.normal.x, Cell.f32 t.normal.y, Cell.f32 t.normal.z,
   Cell.f32 t.v0.x, Cell.f32 t.v0.y, Cell.f32 t.v0.z,
   Cell.f32 t.v1.x, Cell.f32 t.v1.y, Cell.f32 t.v1.z,
   Cell.f32 t.v2.x, Cell.f32 t.v2.y, Cell.f32 t.v2.z,
   w16 0]

/-- `ExporterStl.ExportBinaryForModel`: an 80-byte zero header, the
little-endian 32-bit triangle count, then one 50-byte record per enumerated
triangle. -/
def exportBinaryForModel (tris : List StlTri) : List Cell :=
  List.replicate 80 (w8 0) ++ [w32 tris.length] ++ tris.flatMap stlTriRecord

/-- Header-byte recogniser for the binary STL parser. -/
def isU8 : Cell → Bool
  | .u8 _ => true
  | _ => false

/-- Consume one 50-byte triangle record: 12 floats then a zero attribute
byte count. -/
def stlRecordShape : List Cell → Option (List Cell)
  | .f32 _ :: .f32 _ :: .f32 _ :: .f32 _ :: .f32 _ :: .f32 _ :: .f32 _ :: .f32 _ ::
      .f32 _ :: .f32 _ :: .f32 _ :: .f32 _ :: .u16 a :: rest =>
      if a = 0 then some rest else none
  | _ => none

/-- Check that a write stream holds exactly `n` triangle records. -/
def stlRecords : Nat → List Cell → Bool
  | 0, [] => true
  | 0, _ :: _ => false
  | n + 1, cs =>
      match stlRecordShape cs with
      | some rest => stlRecords n rest
      | none => false

/-- Re-parse a binary STL write stream: an 80-byte header, the declared
triangle count, and exactly that many well-formed records; returns the
triangle count on success. -/
def parseBinaryStl (cs : List Cell) : Option Nat :=
  let hdr := cs.take 80
  if hdr.length = 80 ∧ hdr.all isU8 then
    match cs.drop 80 with
    | Cell.u32 n :: rest => if stlRecords n rest then some n else none
    | _ => none
  else none

/-- One vertex or normal line of the text STL body (numeric rendering of the
rationals stands in for the float formatting of the text writer). -/
def stlCoordLine (tag : String) (v : Vec3) : String :=
  tag ++ " " ++ toString v.x ++ " " ++ toString v.y ++ " " ++ toString v.z

/-- The seven facet lines `ExporterStl.ExportTextForModel` writes per
triangle. -/
def stlTriTextLines (t : StlTri) : List String :=
  [stlCoordLine "facet normal" t.normal,
   "outer loop",
   stlCoordLine "vertex" t.v0,
   stlCoordLine "vertex" t.v1,
   stlCoordLine "vertex" t.v2,
   "endloop",
   "endfacet"]

/-- `ExporterStl.ExportTextForModel` as its list of output lines: the
`solid`/`endsolid` envelope around the facet records. -/
def exportTextForModel (tris : List StlTri) (modelName : String) : List String :=
  ("solid " ++ modelName) :: tris.flatMap stlTriTextLines ++ ["endsolid " ++ modelName]

/-- The exporter-settings fields the STL export path reads
(`exporterModel.settings`). -/
structure ExportSettings where
  exportPhysicalGroups : Bool
  selectedGroups : List Nat
  exportSelectedOnly : Bool
  exportRemainder : Bool
  exportSeparateFiles : Bool
deriving DecidableEq

/-- Content of one exported STL file. -/
inductive StlContent where
  | text (lines : List String)
  | binary (cells : List Cell)
deriving DecidableEq

/-- Result of `ExporterStl.ExportContent`: either locally produced artifacts
or the network round trip to the FreeCAD server (which is outside this pure
embedding). -/
inductive StlExportResult where
  | artifacts (files : List (String × StlContent))
  | remoteRequest
deriving DecidableEq

/-- File format selector (`FileFormat`). -/
inductive FileFormat where
  | text
  | binary
deriving DecidableEq

/-- Modelled from the spec: the export filter's triangle enumeration visits
one record per `(instance, local triangle)` pair of the model; the geometric
evaluation (world transform and unit-normal computation, which live in the
missing `exportermodel.js` and use floating point) is abstracted by `geo`. -/
def Model.trianglesWithNormals (m : Model) (geo : MeshKey × Nat → StlTri) : List StlTri :=
  m.allTriPairs.map geo

/-- `ExporterStl.ExportContent`: route physical-group exports to the FreeCAD
server, otherwise emit the single text or binary artifact named
`model.stl`. -/
def exportContentStl (s : ExportSettings) (m : Model) (geo : MeshKey × Nat → StlTri)
    (format : FileFormat) : StlExportResult :=
  if s.exportPhysicalGroups ∧ m.physicalGroups ≠ [] then
    StlExportResult.remoteRequest
  else
    let tris := m.trianglesWithNormals geo
    match format with
    | .text => .artifacts [("model.stl", .text (exportTextForModel tris "Model"))]
    | .binary => .artifacts [("model.stl", .binary (exportBinaryForModel tris))]

/-- `AlignToBoundary` from `ExporterGltf.ExportBinaryContent`: round a size
up to the next multiple of 4. -/
def alignToBoundary (n : Nat) : Nat :=
  if n % 4 = 0 then n else n + (4 - n % 4)

/-- Declared total size of the GLB container:
12-byte header + two 8-byte chunk headers + aligned payloads. -/
def glbDeclaredSize (jsonBuf mainBuf : List Nat) (texBufs : List (List Nat)) : Nat :=
  12 + 8 + alignToBoundary jsonBuf.length + 8 +
    alignToBoundary (mainBuf.length + (texBufs.map List.length).sum)

/-- `ExporterGltf.ExportBinaryContent` as its write sequence: GLB header
(magic, version 2, total size), JSON chunk (aligned length, JSON tag, payload
padded with spaces), binary chunk (aligned length, BIN tag, main buffer, then
texture buffers, padded with zero bytes). -/
def exportBinaryContentGltf (jsonBuf mainBuf : List Nat) (texBufs : List (List Nat)) :
    List Cell :=
  let mainBinaryBufferLength := mainBuf.length + (texBufs.map List.length).sum
  let mainBinaryBufferAlignedLength := alignToBoundary mainBinaryBufferLength
  let mainJsonBufferLength := jsonBuf.length
  let mainJsonBufferAlignedLength := alignToBoundary mainJsonBufferLength
  let glbSize := 12 + 8 + mainJsonBufferAlignedLength + 8 + mainBinaryBufferAlignedLength
  [w32 0x46546C67, w32 2, w32 glbSize,
   w32 mainJsonBufferAlignedLength, w32 0x4E4F534A, Cell.buf jsonBuf] ++
  List.replicate (mainJsonBufferAlignedLength - mainJsonBufferLength) (w8 32) ++
  [w32 mainBinaryBufferAlignedLength, w32 0x004E4942, Cell.buf mainBuf] ++
  texBufs.map Cell.buf ++
  List.replicate (mainBinaryBufferAlignedLength - mainBinaryBufferLength) (w8 0)

/-- The fixed test-cube mesh `ExporterStl.ExportPhysicalGroups` builds for
every group (exporterbase.js lines 426-456): 8 vertices, 12 triangles, all
with material 0 and zero normal indices. -/
def testCubeMesh : Mesh :=
  { vertices :=
      [⟨-1, -1, -1⟩, ⟨1, -1, -1⟩, ⟨1, 1, -1⟩, ⟨-1, 1, -1⟩,
       ⟨-1, -1, 1⟩, ⟨1, -1, 1⟩, ⟨1, 1, 1⟩, ⟨-1, 1, 1⟩],
    normals := [],
    uvs := [],
    triangles :=
      [⟨0, 1, 2, 0, 0, 0, 0, 0⟩, ⟨0, 2, 3, 0, 0, 0, 0, 0⟩,
       ⟨4, 7, 6, 0, 0, 0, 0, 0⟩, ⟨4, 6, 5, 0, 0, 0, 0, 0⟩,
       ⟨0, 4, 5, 0, 0, 0, 0, 0⟩, ⟨0, 5, 1, 0, 0, 0, 0, 0⟩,
       ⟨2, 6, 7, 0, 0, 0, 0, 0⟩, ⟨2, 7, 3, 0, 0, 0, 0, 0⟩,
       ⟨0, 3, 7, 0, 0, 0, 0, 0⟩, ⟨0, 7, 4, 0, 0, 0, 0, 0⟩,
       ⟨1, 5, 6, 0, 0, 0, 0, 0⟩, ⟨1, 6, 2, 0, 0, 0, 0, 0⟩] }

/-- The filtered model `ExportPhysicalGroups` actually builds for a group:
a fresh model holding the test cube under one child node, independent of the
group's recorded membership. -/
def buildGroupTestModel (_groupName : String) : Model :=
  { root := Node.mk 0 [] [Node.mk 1 [0] []],
    materials := [0],
    meshes := [testCubeMesh],
    physicalGroups := [] }

/-- Filename sanitisation `groupName.replace(/[^a-z0-9]/gi, '_').toLowerCase()`,
written over the character list so that it evaluates inside the kernel. -/
def sanitizeName (s : String) : String :=
  ⟨s.data.map (fun c => if c.isAlpha || c.isDigit then c.toLower else '_')⟩

/-- JS `String.prototype.trim`, written over the character list so that it
evaluates inside the kernel. -/
def strTrim (s : String) : String :=
  ⟨((s.data.dropWhile Char.isWhitespace).reverse.dropWhile Char.isWhitespace).reverse⟩

/-- Value of the `usedMeshInstances` tracking map: either the whole-instance
sentinel string `all` or an explicit face-index list. -/
inductive UsedFaces where
  | all
  | faces (l : List Nat)
deriving DecidableEq

/-- Lookup in the `usedMeshInstances` map. -/
def usedGet : List (MeshKey × UsedFaces) → MeshKey → Option UsedFaces
  | [], _ => none
  | (k0, v) :: rest, k => if k0 = k then some v else usedGet rest k

/-- Helper of `CreateRemainderModel`: register a cloned mesh under a fresh
child node of the remainder model's root. -/
def addInstanceToModel (acc : Model) (mesh : Mesh) : Model :=
  let meshIndex := acc.meshes.length
  { acc with
      meshes := acc.meshes ++ [mesh],
      root := Node.mk acc.root.nodeId acc.root.meshIndices
        (acc.root.children ++ [Node.mk (meshIndex + 1) [meshIndex] []]) }

/-- `ExporterStl.CreateRemainderModel`: per enumerated instance, clone the
whole mesh when the instance is not tracked as used, clone only the unused
faces when a face list is tracked, and skip instances tracked as wholly
used. -/
def createRemainderModel (m : Model) (used : List (MeshKey × UsedFaces)) : Model :=
  m.instanceKeys.foldl
    (fun acc k =>
      let mesh := m.meshAt k.2
      match usedGet used k with
      | none => addInstanceToModel acc mesh
      | some UsedFaces.all => acc
      | some (UsedFaces.faces l) =>
          let cloned :=
            { mesh with
                triangles := (List.range mesh.triangles.length).filterMap
                  (fun i => if i ∈ l then none else mesh.triangles[i]?) }
          if cloned.triangles.length > 0 then addInstanceToModel acc cloned else acc)
    { root := Node.mk 0 [] [], materials := m.materials, meshes := [],
      physicalGroups := [] }

/-- The `(source instance key, local triangle index)` pairs whose triangles
`CreateRemainderModel` copies into the remainder model, in source
coordinates. -/
def remainderIncludedPairs (m : Model) (used : List (MeshKey × UsedFaces)) :
    List (MeshKey × Nat) :=
  m.instanceKeys.flatMap (fun k =>
    let n := (m.meshAt k.2).triangles.length
    match usedGet used k with
    | none => (List.range n).map (fun i => (k, i))
    | some UsedFaces.all => []
    | some (UsedFaces.faces l) =>
        ((List.range n).filter (fun i => i ∉ l)).map (fun i => (k, i)))

/-- The triangle set `G_i` of a physical group per the partition algorithm:
all local triangles of a touched instance when its face list is empty, else
exactly the listed faces. -/
def groupTrianglePairs (m : Model) (g : PhysicalGroup) : List (MeshKey × Nat) :=
  g.meshes.flatMap (fun k =>
    let faces := g.getMeshFaceIndices k
    if faces.isEmpty then
      (List.range (m.meshAt k.2).triangles.length).map (fun i => (k, i))
    else faces.map (fun i => (k, i)))

/-- `ExporterStl.MergeIntoModel`: append clones of the source meshes to the
target and hang a group node referencing them under the target root. -/
def mergeIntoModel (sourceModel targetModel : Model) (_groupName : String) : Model :=
  let base := targetModel.meshes.length
  let groupNode := Node.mk (base + 1)
    (sourceModel.instanceKeys.map (fun k => base + k.2)) []
  { targetModel with
      meshes := targetModel.meshes ++ sourceModel.meshes,
      root := Node.mk targetModel.root.nodeId targetModel.root.meshIndices
        (targetModel.root.children ++ [groupNode]) }

/-- `ExporterStl.ExportPhysicalGroups`: one artifact per group in scope
(each built from the fixed test cube, not from the recorded membership),
optionally a merged model, optionally the remainder computed from the
`usedMeshInstances` map — which this function creates empty and never
populates — and an empty fallback artifact when nothing was produced.
Each artifact is the filtered model the encoder would serialise, paired with
its file name. -/
def exportPhysicalGroupsArtifacts (m : Model) (s : ExportSettings) :
    List (String × Model) :=
  let perGroup := (List.range m.physicalGroups.length).filterMap (fun i =>
    if s.exportSelectedOnly ∧ i ∉ s.selectedGroups then none
    else
      let g := m.physicalGroups.getD i (PhysicalGroup.init "")
      let filteredModel := buildGroupTestModel g.name
      if filteredModel.meshInstanceCount = 0 ∨ filteredModel.triangleCount = 0 then none
      else some (g, filteredModel))
  let separate :=
    if s.exportSeparateFiles then
      perGroup.map (fun p => (sanitizeName p.1.name ++ ".stl", p.2))
    else []
  let unified :=
    if ¬ s.exportSeparateFiles ∧ perGroup.length > 0 then
      [("model.stl",
        perGroup.foldl (fun acc p => mergeIntoModel p.2 acc p.1.name)
          { root := Node.mk 0 [] [], materials := m.materials, meshes := [],
            physicalGroups := [] })]
    else []
  let remainder :=
    if s.exportRemainder then
      let remainderModel := createRemainderModel m []
      if remainderModel.meshInstanceCount > 0 ∧ remainderModel.triangleCount > 0 then
        [("remainder.stl", remainderModel)]
      else []
    else []
  let files := separate ++ unified ++ remainder
  if files.isEmpty then
    [("empty.stl",
      { root := Node.mk 0 [] [], materials := [], meshes := [], physicalGroups := [] })]
  else files

/-- The proportional index-range slicing `ExporterIges.ExportContent` uses to
assign triangles to group `i` (src/unnamed/part_006 lines 79-95): a block of
`max 1 (total / numGroups)` consecutive indices, clamped to the total. -/
def igesGroupTriangles (totalTriangles numGroups i : Nat) : List Nat :=
  let groupSize := max 1 (totalTriangles / numGroups)
  let startIdx := i * groupSize
  let endIdx := min totalTriangles ((i + 1) * groupSize)
  List.range' startIdx (endIdx - startIdx)

/-- Outcome of the UI group-creation flow. -/
inductive CreateGroupResult where
  | created
  | rejectedEmptyName
  | rejectedDuplicateName

/-- The UI creation flow `CreatePhysicalGroupFromSelectedFaces`
(src/unnamed/part_002): reject an empty trimmed name, reject a duplicate
name before touching the model, otherwise call `Model.AddPhysicalGroup`;
returns the outcome together with the resulting model state. -/
def uiCreatePhysicalGroup (m : Model) (rawName : String) : CreateGroupResult × Model :=
  let groupName := strTrim rawName
  if groupName = "" then (.rejectedEmptyName, m)
  else if (m.findPhysicalGroupByName groupName).isSome then (.rejectedDuplicateName, m)
  else (.created, (m.addPhysicalGroup groupName).1)

/-- What the export dialog does with the finished artifact list or with a
pre-flight rejection. -/
inductive PackStep where
  | closeOnly
  | download (fileName : String)
  | downloadZip (zipName : String) (entries : List String)
  | showError (msg : String)
deriving DecidableEq

/-- The `onSuccess` packaging of `ModelExporterUI.ExportModel`
(exportdialog.js lines 276-294), over the artifact file names: zero files
close the progress dialog, one file is downloaded under its own name, more
files are zipped into `model.zip`. -/
def packageExportedFiles (files : List String) : PackStep :=
  match files with
  | [] => .closeOnly
  | [f] => .download f
  | fs => .downloadZip "model.zip" fs

/-- The pre-flight check of `ModelExporterUI.ExportModel`: an error dialog
when the model has neither mesh instances nor physical groups. -/
def exportModelPreflight (m : Model) : Option PackStep :=
  if m.meshInstanceCount = 0 ∧ m.physicalGroups = [] then
    some (.showError "The model does not contain any meshes or physical groups.")
  else none

/-- Demo mesh with 12 triangles (the test cube reused as plain content). -/
def mesh12 : Mesh := testCubeMesh

/-- Group touching instance (1,0) on faces 0-4 (5 triangles). -/
def groupA : PhysicalGroup :=
  { name := "GroupA", color := none, meshes := [(1, 0)],
    meshFaces := [((1, 0), [0, 1, 2, 3, 4])] }

/-- Group touching instance (1,0) on faces 5-11 (7 triangles). -/
def groupB : PhysicalGroup :=
  { name := "GroupB", color := none, meshes := [(1, 0)],
    meshFaces := [((1, 0), [5, 6, 7, 8, 9, 10, 11])] }

/-- A 12-triangle single-instance model carrying the two non-overlapping
groups of 5 and 7 triangles. -/
def demoModelSplit : Model :=
  { root := Node.mk 0 [] [Node.mk 1 [0] []],
    materials := [0],
    meshes := [mesh12],
    physicalGroups := [groupA, groupB] }

/-- SelectedGroups([0,1]) with includeRemainder = false. -/
def demoSettingsSplit : ExportSettings :=
  { exportPhysicalGroups := true, selectedGroups := [0, 1],
    exportSelectedOnly := true, exportRemainder := false,
    exportSeparateFiles := true }

/-- Group with whole-instance membership of instance (1,0) (empty face
list = all triangles). -/
def groupWhole : PhysicalGroup :=
  { name := "Whole", color := none, meshes := [(1, 0)], meshFaces := [((1, 0), [])] }

/-- A 12-triangle single-instance model wholly covered by one group. -/
def demoModelWhole : Model :=
  { root := Node.mk 0 [] [Node.mk 1 [0] []],
    materials := [0],
    meshes := [mesh12],
    physicalGroups := [groupWhole] }

/-- SelectedGroups([0]) with includeRemainder = true. -/
def demoSettingsWhole : ExportSettings :=
  { exportPhysicalGroups := true, selectedGroups := [0],
    exportSelectedOnly := true, exportRemainder := true,
    exportSeparateFiles := true }

/-- Two-mesh model whose root references mesh slots 0 and 1, with a group
recorded under the key of the second instance. -/
def demoModelTwoMeshes : Model :=
  { root := Node.mk 0 [0, 1] [],
    materials := [],
    meshes := [mesh12, mesh12],
    physicalGroups :=
      [{ name := "OnSecond", color := none, meshes := [(0, 1)],
         meshFaces := [((0, 1), [])] }] }

/-- Model already holding a group named A. -/
def demoModelDupName : Model :=
  { root := Node.mk 0 [] [], materials := [], meshes := [],
    physicalGroups := [PhysicalGroup.init "A"] }

/-- The empty model. -/
def emptyModel : Model :=
  { root := Node.mk 0 [] [], materials := [], meshes := [], physicalGroups := [] }

/-- Settings with every group-export option off. -/
def plainSettings : ExportSettings :=
  { exportPhysicalGroups := false, selectedGroups := [],
    exportSelectedOnly := false, exportRemainder := false,
    exportSeparateFiles := true }

/-- The 12 unit-cube triangle records fed to the STL encoders (geometry per
pair is irrelevant to the layout claims; the constant record keeps the
witness computations small). -/
def cubeGeo : MeshKey × Nat → StlTri :=
  fun _ => { v0 := ⟨0, 0, 0⟩, v1 := ⟨1, 0, 0⟩, v2 := ⟨0, 1, 0⟩, normal := ⟨0, 0, 1⟩ }

/-- A 12-triangle enumeration, as produced for a unit cube. -/
def cubeTris : List StlTri :=
  (demoModelWhole.trianglesWithNormals cubeGeo)

/-- The key rewrite `Model.RemoveMesh` induces on a surviving instance key:
mesh indices above the removed one are decremented. -/
def shiftKey (idx : Nat) (p : MeshKey) : MeshKey :=
  if idx < p.2 then (p.1, p.2 - 1) else p

/-- The structural invariant of a physical group: the touched-key set and
the face map are duplicate-free, membership agrees with the existence of a
face-map entry, and every stored face list is duplicate-free. -/
def PhysicalGroup.WellFormed (g : PhysicalGroup) : Prop :=
  g.meshes.Nodup
  ∧ (g.meshFaces.map Prod.fst).Nodup
  ∧ (∀ k, k ∈ g.meshes ↔ (mapGet g.meshFaces k).isSome = true)
  ∧ (∀ k, ((mapGet g.meshFaces k).getD []).Nodup)

/-! ### Claim C1: group artifacts versus recorded membership -/

/-- C1: the group-aware encoders do not emit the recorded per-instance face
membership. On a 12-triangle instance carrying two non-overlapping groups of
5 and 7 triangles, `SelectedGroups([0,1])` with no remainder yields 2
artifacts as claimed, but each is the fixed 12-triangle placeholder cube
(triangle counts [12, 12], not [5, 7]); the IGES path slices indices
proportionally instead (6 and 6). -/
theorem groupExport_placeholder_not_membership :
    (groupTrianglePairs demoModelSplit groupA).length = 5
  ∧ (groupTrianglePairs demoModelSplit groupB).length = 7
  ∧ demoModelSplit.triangleCount = 12
  ∧ (exportPhysicalGroupsArtifacts demoModelSplit demoSettingsSplit).length = 2
  ∧ (exportPhysicalGroupsArtifacts demoModelSplit demoSettingsSplit).map
      (fun a => a.2.triangleCount) = [12, 12]
  ∧ (igesGroupTriangles 12 2 0).length = 6
  ∧ (igesGroupTriangles 12 2 1).length = 6 := by decide

/-! ### Claim C2: remainder disjointness -/

/-- C2: the STL physical-group pipeline passes a never-populated
`usedMeshInstances` map to `CreateRemainderModel`, so on a model wholly
covered by a single whole-instance group the emitted remainder artifact
contains every triangle of the group: pair ((1,0),0) is in both the group
set and the remainder, and both artifacts carry 12 triangles. -/
theorem remainder_not_disjoint_from_groups :
    ((1, 0), 0) ∈ groupTrianglePairs demoModelWhole groupWhole
  ∧ ((1, 0), 0) ∈ remainderIncludedPairs demoModelWhole []
  ∧ (exportPhysicalGroupsArtifacts demoModelWhole demoSettingsWhole).map Prod.fst
      = ["whole.stl", "remainder.stl"]
  ∧ (exportPhysicalGroupsArtifacts demoModelWhole demoSettingsWhole).map
      (fun a => a.2.triangleCount) = [12, 12] := by decide

/-! ### Claim C5: duplicate group names -/

/-- C5 counterexample: `Model.AddPhysicalGroup` performs no duplicate-name
check; adding A to a model that already holds a group named A succeeds and
extends the group list instead of rejecting the operation. -/
theorem addPhysicalGroup_accepts_duplicate :
    (demoModelDupName.findPhysicalGroupByName "A").isSome = true
  ∧ ((demoModelDupName.addPhysicalGroup "A").1.physicalGroups.map PhysicalGroup.name)
      = ["A", "A"] := by decide

/-- C5 amended: the duplicate-name rejection lives in the UI creation flow,
which queries `FindPhysicalGroupByName` (case-sensitive) first and rejects
the creation with the model unchanged whenever a group with that (nonempty,
trimmed) name exists. -/
theorem uiCreateGroup_rejects_duplicate (m : Model) (name : String)
    (h1 : ¬ strTrim name = "")
    (h2 : (m.findPhysicalGroupByName (strTrim name)).isSome = true) :
    uiCreatePhysicalGroup m name = (CreateGroupResult.rejectedDuplicateName, m) := by
  simp [uiCreatePhysicalGroup, h1, h2]

/-- C5 witness: the amended rejection at a concrete duplicate name. -/
theorem uiCreateGroup_rejects_duplicate_check :
    (¬ strTrim "A" = "")
  ∧ (demoModelDupName.findPhysicalGroupByName (strTrim "A")).isSome = true
  ∧ uiCreatePhysicalGroup demoModelDupName "A"
      = (CreateGroupResult.rejectedDuplicateName, demoModelDupName) :=
  ⟨by decide, by decide,
   uiCreateGroup_rejects_duplicate demoModelDupName "A" (by decide) (by decide)⟩

/-! ### Claim C6: key stability under mesh removal -/

/-- C6 counterexample: removing mesh 0 from a model whose root references
mesh slots 0 and 1 leaves one mesh and one instance, but that surviving
instance's key changes from (0,1) to (0,0); the group recorded under (0,1)
is left untouched and now references no instance. -/
theorem removeMesh_changes_unrelated_key :
    demoModelTwoMeshes.instanceKeys = [(0, 0), (0, 1)]
  ∧ (demoModelTwoMeshes.removeMesh 0).meshes.length = 1
  ∧ (demoModelTwoMeshes.removeMesh 0).instanceKeys = [(0, 0)]
  ∧ ((0, 1) ∉ (demoModelTwoMeshes.removeMesh 0).instanceKeys)
  ∧ (demoModelTwoMeshes.removeMesh 0).physicalGroups
      = demoModelTwoMeshes.physicalGroups := by decide

/-! ### Claim C8: packaging by artifact count -/

/-- C8 counterexample: on zero artifacts the completion handler only closes
the progress dialog; no caller-visible error is produced. -/
theorem packaging_zero_artifacts_silent :
    packageExportedFiles [] = PackStep.closeOnly := rfl

/-- C8 amended: zero artifacts close the progress dialog silently; one
artifact is delivered as the single named buffer; more than one artifact is
zipped under the fixed name model.zip; the nothing-to-export error dialog is
raised only by the pre-flight check, when the model has neither mesh
instances nor physical groups. -/
theorem packaging_by_artifact_count :
    packageExportedFiles [] = PackStep.closeOnly
  ∧ (∀ f, packageExportedFiles [f] = PackStep.download f)
  ∧ (∀ f g rest, packageExportedFiles (f :: g :: rest)
      = PackStep.downloadZip "model.zip" (f :: g :: rest))
  ∧ (∀ m : Model, m.meshInstanceCount = 0 → m.physicalGroups = [] →
      exportModelPreflight m = some (PackStep.showError
        "The model does not contain any meshes or physical groups.")) := by
  refine ⟨rfl, fun f => rfl, fun f g rest => rfl, fun m h1 h2 => ?_⟩
  simp [exportModelPreflight, h1, h2]

/-- C8 witness: the amended packaging rule at concrete artifact lists and a
concrete empty model. -/
theorem packaging_by_artifact_count_check :
    packageExportedFiles ["a.stl"] = PackStep.download "a.stl"
  ∧ packageExportedFiles ["a.stl", "b.stl"]
      = PackStep.downloadZip "model.zip" ["a.stl", "b.stl"]
  ∧ emptyModel.meshInstanceCount = 0
  ∧ exportModelPreflight emptyModel = some (PackStep.showError
      "The model does not contain any meshes or physical groups.") :=
  ⟨packaging_by_artifact_count.2.1 "a.stl",
   packaging_by_artifact_count.2.2.1 "a.stl" "b.stl" [],
   by decide,
   packaging_by_artifact_count.2.2.2 emptyModel (by decide) rfl⟩

/-- Filtering instance pairs by mesh index commutes with pairing a node
identity onto raw mesh indices. -/
theorem filter_pair_map (i idx : Nat) (ms : List Nat) :
    (ms.map (fun m => ((i, m) : MeshKey))).filter (fun p => p.2 ≠ idx)
      = (ms.filter (fun m => m ≠ idx)).map (fun m => (i, m)) := by
  induction ms with
  | nil => rfl
  | cons a ms ih =>
      simp only [ne_eq, decide_not] at ih ⊢
      by_cases h : a = idx <;> simp [h, ih]

/-- Shifting raw mesh indices commutes with pairing a node identity. -/
theorem map_shift_pair (i idx : Nat) (ms : List Nat) :
    ((ms.map (fun m => if idx < m then m - 1 else m)).map (fun m => ((i, m) : MeshKey)))
      = (ms.map (fun m => ((i, m) : MeshKey))).map (shiftKey idx) := by
  induction ms with
  | nil => rfl
  | cons a ms ih =>
      by_cases h : idx < a <;> simp [h, ih, shiftKey]

mutual

/-- Node-level effect of `Model.RemoveMesh` on enumerated instance keys. -/
theorem node_keys_removeMeshIdx (idx : Nat) (n : Node) :
    (n.removeMeshIdx idx).instanceKeys
      = ((n.instanceKeys).filter (fun p => p.2 ≠ idx)).map (shiftKey idx) := by
  cases n with
  | mk i ms cs =>
      rw [Node.removeMeshIdx, Node.instanceKeys, Node.instanceKeys,
        forest_keys_removeMeshIdx idx cs, List.filter_append, List.map_append,
        filter_pair_map, removeShift, map_shift_pair]

/-- Forest-level effect of `Model.RemoveMesh` on enumerated instance keys. -/
theorem forest_keys_removeMeshIdx (idx : Nat) (ns : List Node) :
    Node.forestInstanceKeys (Node.forestRemoveMeshIdx idx ns)
      = ((Node.forestInstanceKeys ns).filter (fun p => p.2 ≠ idx)).map (shiftKey idx) := by
  cases ns with
  | nil => rfl
  | cons c cs =>
      rw [Node.forestRemoveMeshIdx, Node.forestInstanceKeys, Node.forestInstanceKeys,
        node_keys_removeMeshIdx idx c, forest_keys_removeMeshIdx idx cs,
        List.filter_append, List.map_append]

end

/-- C6 amended: `Model.RemoveMesh idx` removes exactly the instance keys
whose mesh index is `idx` and renumbers every surviving key by decrementing
mesh indices above `idx`; the physical-group lists are left untouched (so
membership recorded under a renumbered key is not rewritten to follow it). -/
theorem removeMesh_renumbers_keys (m : Model) (idx : Nat) :
    (m.removeMesh idx).instanceKeys
      = ((m.instanceKeys).filter (fun p => p.2 ≠ idx)).map (shiftKey idx)
  ∧ (m.removeMesh idx).physicalGroups = m.physicalGroups :=
  ⟨node_keys_removeMeshIdx idx m.root, rfl⟩

/-! ### Claim C7: empty-model export -/

/-- A model with zero mesh instances enumerates no triangles. -/
theorem trianglesWithNormals_of_no_instances (m : Model) (geo : MeshKey × Nat → StlTri)
    (h : m.meshInstanceCount = 0) : m.trianglesWithNormals geo = [] := by
  have hkeys : m.instanceKeys = [] := List.length_eq_zero.mp h
  simp [Model.trianglesWithNormals, Model.allTriPairs, hkeys]

/-- C7: with no group-export mode selected, exporting a model with zero mesh
instances yields exactly one artifact per format: the empty
`solid Model`/`endsolid Model` text envelope, and an 84-byte binary file
holding the zero-filled header and triangle count 0. -/
theorem empty_model_minimal_artifacts (m : Model) (geo : MeshKey × Nat → StlTri)
    (s : ExportSettings) (h1 : s.exportPhysicalGroups = false)
    (h2 : m.meshInstanceCount = 0) :
    exportContentStl s m geo FileFormat.text
      = StlExportResult.artifacts
          [("model.stl", StlContent.text ["solid Model", "endsolid Model"])]
  ∧ exportContentStl s m geo FileFormat.binary
      = StlExportResult.artifacts
          [("model.stl", StlContent.binary (List.replicate 80 (Cell.u8 0) ++ [Cell.u32 0]))]
  ∧ byteLength (List.replicate 80 (Cell.u8 0) ++ [Cell.u32 0]) = 80 + 4 := by
  have htris := trianglesWithNormals_of_no_instances m geo h2
  refine ⟨?_, ?_, by decide⟩
  · simp [exportContentStl, h1, htris, exportTextForModel]
  · simp [exportContentStl, h1, htris, exportBinaryForModel, w8, w32]

/-- C7 witness: the minimal artifacts at a concrete empty model. -/
theorem empty_model_minimal_artifacts_check :
    plainSettings.exportPhysicalGroups = false
  ∧ emptyModel.meshInstanceCount = 0
  ∧ (exportContentStl plainSettings emptyModel cubeGeo FileFormat.text
      = StlExportResult.artifacts
          [("model.stl", StlContent.text ["solid Model", "endsolid Model"])]
    ∧ exportContentStl plainSettings emptyModel cubeGeo FileFormat.binary
      = StlExportResult.artifacts
          [("model.stl", StlContent.binary (List.replicate 80 (Cell.u8 0) ++ [Cell.u32 0]))]
    ∧ byteLength (List.replicate 80 (Cell.u8 0) ++ [Cell.u32 0]) = 80 + 4) :=
  ⟨rfl, rfl, empty_model_minimal_artifacts emptyModel cubeGeo plainSettings rfl rfl⟩

/-! ### Claim C3: binary STL layout and round trip -/

/-- Byte length distributes over concatenated write sequences. -/
theorem byteLength_append (a b : List Cell) :
    byteLength (a ++ b) = byteLength a + byteLength b := by
  simp [byteLength]

/-- Byte length of a repeated write. -/
theorem byteLength_replicate (n : Nat) (c : Cell) :
    byteLength (List.replicate n c) = n * c.size := by
  simp [byteLength, List.map_replicate, List.sum_replicate, smul_eq_mul]

/-- Each triangle record is exactly 50 bytes. -/
theorem byteLength_stlTriRecord (t : StlTri) : byteLength (stlTriRecord t) = 50 := rfl

/-- Byte length of the triangle-record block. -/
theorem byteLength_records (tris : List StlTri) :
    byteLength (tris.flatMap stlTriRecord) = 50 * tris.length := by
  induction tris with
  | nil => rfl
  | cons t ts ih =>
      rw [List.flatMap_cons, byteLength_append, byteLength_stlTriRecord, ih,
        List.length_cons]
      ring

/-- The record parser consumes exactly one encoded record. -/
theorem stlRecordShape_encode (t : StlTri) (rest : List Cell) :
    stlRecordShape (stlTriRecord t ++ rest) = some rest := rfl

/-- The record parser accepts the encoded record block. -/
theorem stlRecords_encode (tris : List StlTri) :
    stlRecords tris.length (tris.flatMap stlTriRecord) = true := by
  induction tris with
  | nil => rfl
  | cons t ts ih =>
      rw [List.flatMap_cons, List.length_cons]
      show stlRecords (ts.length + 1) (stlTriRecord t ++ ts.flatMap stlTriRecord) = true
      rw [stlRecords, stlRecordShape_encode]
      exact ih

/-- C3: the binary STL encoder always writes 80 + 4 + 50·n bytes: an 80-byte
zero header, the triangle count as a 32-bit little-endian field, then one
50-byte record (normal, three vertices, zero attribute count) per triangle;
re-parsing the write sequence recovers exactly the triangle count. -/
theorem stl_binary_layout (tris : List StlTri) (h : tris.length < 4294967296) :
    byteLength (exportBinaryForModel tris) = 80 + 4 + 50 * tris.length
  ∧ (exportBinaryForModel tris).take 80 = List.replicate 80 (Cell.u8 0)
  ∧ ((exportBinaryForModel tris).drop 80).head? = some (Cell.u32 tris.length)
  ∧ parseBinaryStl (exportBinaryForModel tris) = some tris.length := by
  have hw8 : w8 0 = Cell.u8 0 := rfl
  have hw32 : w32 tris.length = Cell.u32 tris.length := by
    simp [w32, Nat.mod_eq_of_lt h]
  have hlen : (List.replicate 80 (w8 0)).length = 80 := List.length_replicate 80 _
  have htake : (exportBinaryForModel tris).take 80 = List.replicate 80 (w8 0) := by
    rw [exportBinaryForModel, List.append_assoc]
    exact List.take_left' hlen
  have hdrop : (exportBinaryForModel tris).drop 80
      = [w32 tris.length] ++ tris.flatMap stlTriRecord := by
    rw [exportBinaryForModel, List.append_assoc]
    exact List.drop_left' hlen
  refine ⟨?_, ?_, ?_, ?_⟩
  · rw [exportBinaryForModel, byteLength_append, byteLength_append,
      byteLength_replicate, byteLength_records]
    simp [Cell.size, w8, w32, byteLength]
  · rw [htake, hw8]
  · rw [hdrop, hw32]
    rfl
  · rw [parseBinaryStl, htake, hdrop, hw32]
    have hall : (List.replicate 80 (w8 0)).all isU8 = true := by decide
    rw [if_pos ⟨hlen, hall⟩]
    simp only [List.singleton_append]
    rw [if_pos (stlRecords_encode tris)]

/-- C3 witness: the 12-triangle unit-cube enumeration yields a 684-byte
artifact that re-parses to 12 triangles. -/
theorem stl_binary_layout_check :
    cubeTris.length < 4294967296
  ∧ (byteLength (exportBinaryForModel cubeTris) = 80 + 4 + 50 * cubeTris.length
    ∧ (exportBinaryForModel cubeTris).take 80 = List.replicate 80 (Cell.u8 0)
    ∧ ((exportBinaryForModel cubeTris).drop 80).head? = some (Cell.u32 cubeTris.length)
    ∧ parseBinaryStl (exportBinaryForModel cubeTris) = some cubeTris.length)
  ∧ byteLength (exportBinaryForModel cubeTris) = 684
  ∧ parseBinaryStl (exportBinaryForModel cubeTris) = some 12 :=
  ⟨by decide, stl_binary_layout cubeTris (by decide), by decide, by decide⟩

/-! ### Claim C4: GLB container alignment -/

/-- Boundary alignment never shrinks a size. -/
theorem alignToBoundary_ge (n : Nat) : n ≤ alignToBoundary n := by
  unfold alignToBoundary
  split <;> omega

/-- Boundary alignment produces a multiple of 4. -/
theorem alignToBoundary_dvd (n : Nat) : 4 ∣ alignToBoundary n := by
  unfold alignToBoundary
  split <;> omega

/-- Byte length of the texture-buffer block. -/
theorem byteLength_map_buf (ts : List (List Nat)) :
    byteLength (ts.map Cell.buf) = (ts.map List.length).sum := by
  induction ts with
  | nil => rfl
  | cons t ts ih =>
      simp only [List.map_cons, byteLength, List.sum_cons] at *
      rw [ih]
      rfl

/-- C4: the GLB write sequence is exactly as long as the total length the
header declares, that total and both declared chunk lengths are multiples of
4, the 12-byte header carries the magic constant, version 2 and the total
length, the JSON payload is padded to its 4-byte boundary with spaces, and
the binary payload is padded with zero bytes. -/
theorem glb_container_alignment (jsonBuf mainBuf : List Nat) (texBufs : List (List Nat))
    (h : glbDeclaredSize jsonBuf mainBuf texBufs < 4294967296) :
    byteLength (exportBinaryContentGltf jsonBuf mainBuf texBufs)
      = glbDeclaredSize jsonBuf mainBuf texBufs
  ∧ 4 ∣ glbDeclaredSize jsonBuf mainBuf texBufs
  ∧ 4 ∣ alignToBoundary jsonBuf.length
  ∧ 4 ∣ alignToBoundary (mainBuf.length + (texBufs.map List.length).sum)
  ∧ (exportBinaryContentGltf jsonBuf mainBuf texBufs).take 3
      = [Cell.u32 0x46546C67, Cell.u32 2,
         Cell.u32 (glbDeclaredSize jsonBuf mainBuf texBufs)]
  ∧ ((exportBinaryContentGltf jsonBuf mainBuf texBufs).drop 6).take
        (alignToBoundary jsonBuf.length - jsonBuf.length)
      = List.replicate (alignToBoundary jsonBuf.length - jsonBuf.length) (Cell.u8 32)
  ∧ (((((exportBinaryContentGltf jsonBuf mainBuf texBufs).drop 6).drop
        (alignToBoundary jsonBuf.length - jsonBuf.length)).drop 3).drop texBufs.length)
      = List.replicate (alignToBoundary (mainBuf.length + (texBufs.map List.length).sum)
          - (mainBuf.length + (texBufs.map List.length).sum)) (Cell.u8 0) := by
  have hj := alignToBoundary_ge jsonBuf.length
  have hb := alignToBoundary_ge (mainBuf.length + (texBufs.map List.length).sum)
  have hw32sz : w32 (glbDeclaredSize jsonBuf mainBuf texBufs)
      = Cell.u32 (glbDeclaredSize jsonBuf mainBuf texBufs) := by
    simp [w32, Nat.mod_eq_of_lt h]
  have hdrop6 : (exportBinaryContentGltf jsonBuf mainBuf texBufs).drop 6
      = List.replicate (alignToBoundary jsonBuf.length - jsonBuf.length) (w8 32) ++
        ([w32 (alignToBoundary (mainBuf.length + (texBufs.map List.length).sum)),
          w32 0x004E4942, Cell.buf mainBuf] ++
         (texBufs.map Cell.buf ++
          List.replicate (alignToBoundary (mainBuf.length + (texBufs.map List.length).sum)
            - (mainBuf.length + (texBufs.map List.length).sum)) (w8 0))) := by
    simp only [exportBinaryContentGltf, List.cons_append, List.nil_append,
      List.append_assoc, List.drop_succ_cons, List.drop_zero]
  refine ⟨?_, ?_, alignToBoundary_dvd _, alignToBoundary_dvd _, ?_, ?_, ?_⟩
  · simp only [exportBinaryContentGltf, byteLength_append, byteLength_replicate,
      byteLength_map_buf, glbDeclaredSize]
    have hcells : byteLength
        [w32 0x46546C67, w32 2,
         w32 (12 + 8 + alignToBoundary jsonBuf.length + 8 +
           alignToBoundary (mainBuf.length + (texBufs.map List.length).sum)),
         w32 (alignToBoundary jsonBuf.length), w32 0x4E4F534A, Cell.buf jsonBuf]
        = 20 + jsonBuf.length := by
      simp [byteLength, w32, Cell.size]
      omega
    have hcells2 : byteLength
        [w32 (alignToBoundary (mainBuf.length + (texBufs.map List.length).sum)),
         w32 0x004E4942, Cell.buf mainBuf] = 8 + mainBuf.length := by
      simp [byteLength, w32, Cell.size]
      omega
    rw [hcells, hcells2]
    simp only [Cell.size, w8]
    omega
  · have hd1 := alignToBoundary_dvd jsonBuf.length
    have hd2 := alignToBoundary_dvd (mainBuf.length + (texBufs.map List.length).sum)
    simp only [glbDeclaredSize]
    omega
  · simp only [exportBinaryContentGltf, List.cons_append, List.take_succ_cons,
      List.take_zero]
    simp only [glbDeclaredSize] at hw32sz ⊢
    have hm : w32 0x46546C67 = Cell.u32 0x46546C67 := by
      simp [w32]
    have hv : w32 2 = Cell.u32 2 := by
      simp [w32]
    rw [hm, hv, hw32sz]
  · rw [hdrop6]
    rw [List.take_left' (List.length_replicate _ _)]
    rfl
  · rw [hdrop6]
    rw [List.drop_left' (List.length_replicate _ _)]
    simp only [List.cons_append, List.nil_append, List.drop_succ_cons, List.drop_zero]
    rw [List.drop_left' (List.length_map _ _)]
    rfl

/-- C4 witness: the container layout at concrete buffers. -/
theorem glb_container_alignment_check :
    glbDeclaredSize [1, 2, 3] [5, 6] [[7]] < 4294967296
  ∧ (byteLength (exportBinaryContentGltf [1, 2, 3] [5, 6] [[7]])
      = glbDeclaredSize [1, 2, 3] [5, 6] [[7]]
    ∧ 4 ∣ glbDeclaredSize [1, 2, 3] [5, 6] [[7]]
    ∧ 4 ∣ alignToBoundary (List.length [1, 2, 3])
    ∧ 4 ∣ alignToBoundary ((List.length [5, 6]) + (([[7]].map List.length)).sum)
    ∧ (exportBinaryContentGltf [1, 2, 3] [5, 6] [[7]]).take 3
        = [Cell.u32 0x46546C67, Cell.u32 2,
           Cell.u32 (glbDeclaredSize [1, 2, 3] [5, 6] [[7]])]
    ∧ ((exportBinaryContentGltf [1, 2, 3] [5, 6] [[7]]).drop 6).take
          (alignToBoundary (List.length [1, 2, 3]) - List.length [1, 2, 3])
        = List.replicate (alignToBoundary (List.length [1, 2, 3]) - List.length [1, 2, 3])
            (Cell.u8 32)
    ∧ (((((exportBinaryContentGltf [1, 2, 3] [5, 6] [[7]]).drop 6).drop
          (alignToBoundary (List.length [1, 2, 3]) - List.length [1, 2, 3])).drop 3).drop
            (List.length [[7]]))
        = List.replicate
            (alignToBoundary ((List.length [5, 6]) + (([[7]].map List.length)).sum)
              - ((List.length [5, 6]) + (([[7]].map List.length)).sum)) (Cell.u8 0)) :=
  ⟨by decide, glb_container_alignment [1, 2, 3] [5, 6] [[7]] (by decide)⟩

/-! ### Claims C9 and C10: physical-group invariants -/

/-- An added key is a member. -/
theorem mem_setAdd_self (s : List MeshKey) (k : MeshKey) : k ∈ setAdd s k := by
  unfold setAdd
  by_cases h : k ∈ s <;> simp [h]

/-- Membership after a set insertion. -/
theorem mem_setAdd_iff (s : List MeshKey) (k k2 : MeshKey) :
    k2 ∈ setAdd s k ↔ k2 ∈ s ∨ k2 = k := by
  unfold setAdd
  by_cases h : k ∈ s
  · rw [if_pos h]
    constructor
    · exact Or.inl
    · rintro (h2 | rfl)
      · exact h2
      · exact h
  · rw [if_neg h]
    simp

/-- Inserting a present key is a no-op. -/
theorem setAdd_of_mem {s : List MeshKey} {k : MeshKey} (h : k ∈ s) : setAdd s k = s := by
  simp [setAdd, h]

/-- Set insertion is idempotent. -/
theorem setAdd_idem (s : List MeshKey) (k : MeshKey) :
    setAdd (setAdd s k) k = setAdd s k :=
  setAdd_of_mem (mem_setAdd_self s k)

/-- Set insertion preserves freedom from duplicates. -/
theorem setAdd_nodup {s : List MeshKey} (k : MeshKey) (h : s.Nodup) :
    (setAdd s k).Nodup := by
  unfold setAdd
  by_cases hm : k ∈ s
  · simpa [hm]
  · simp [hm, List.nodup_append, h]

/-- Lookup distributes over concatenation, first list winning. -/
theorem mapGet_append (m1 m2 : List (MeshKey × List Nat)) (k : MeshKey) :
    mapGet (m1 ++ m2) k
      = match mapGet m1 k with
        | some v => some v
        | none => mapGet m2 k := by
  induction m1 with
  | nil => rfl
  | cons p m1 ih =>
      obtain ⟨k0, v⟩ := p
      by_cases h : k0 = k <;> simp [mapGet, h, ih]

/-- A key is absent from the map exactly when lookup fails. -/
theorem mapGet_eq_none_iff (m : List (MeshKey × List Nat)) (k : MeshKey) :
    mapGet m k = none ↔ k ∉ m.map Prod.fst := by
  induction m with
  | nil => simp [mapGet]
  | cons p m ih =>
      obtain ⟨k0, v⟩ := p
      by_cases h : k0 = k
      · subst h
        simp [mapGet]
      · simp [mapGet, h, ih, Ne.symm h]

/-- Lookup after setting the same key. -/
theorem mapGet_mapSet_self (m : List (MeshKey × List Nat)) (k : MeshKey) (v : List Nat) :
    mapGet (mapSet m k v) k = some v := by
  induction m with
  | nil => simp [mapSet, mapGet]
  | cons p m ih =>
      obtain ⟨k0, v0⟩ := p
      by_cases h : k0 = k <;> simp [mapSet, mapGet, h, ih]

/-- Lookup after setting a different key. -/
theorem mapGet_mapSet_ne (m : List (MeshKey × List Nat)) (k k2 : MeshKey) (v : List Nat)
    (h : ¬ k2 = k) : mapGet (mapSet m k v) k2 = mapGet m k2 := by
  have hks : ¬ k = k2 := fun hh => h (Eq.symm hh)
  induction m with
  | nil =>
      simp [mapSet, mapGet, hks]
  | cons p m ih =>
      obtain ⟨k0, v0⟩ := p
      by_cases h0 : k0 = k
      · subst h0
        simp [mapSet, mapGet, hks]
      · simp [mapSet, mapGet, h0, ih]

/-- Setting a present key does not change the key list. -/
theorem mapSet_map_fst_of_isSome (m : List (MeshKey × List Nat)) (k : MeshKey)
    (v : List Nat) (h : (mapGet m k).isSome = true) :
    (mapSet m k v).map Prod.fst = m.map Prod.fst := by
  induction m with
  | nil => simp [mapGet] at h
  | cons p m ih =>
      obtain ⟨k0, v0⟩ := p
      by_cases h0 : k0 = k
      · simp [mapSet, h0]
      · simp only [mapGet, h0, if_neg] at h
        simp [mapSet, h0, ih h]

/-- Lookup of a deleted key fails. -/
theorem mapGet_mapDelete_self (m : List (MeshKey × List Nat)) (k : MeshKey) :
    mapGet (mapDelete m k) k = none := by
  induction m with
  | nil => rfl
  | cons p m ih =>
      obtain ⟨k0, v0⟩ := p
      by_cases h : k0 = k <;> simp [mapDelete, mapGet, h, ih]

/-- Deleting one key leaves lookups of other keys unchanged. -/
theorem mapGet_mapDelete_ne (m : List (MeshKey × List Nat)) (k k2 : MeshKey)
    (h : ¬ k2 = k) : mapGet (mapDelete m k) k2 = mapGet m k2 := by
  have hks : ¬ k = k2 := fun hh => h (Eq.symm hh)
  induction m with
  | nil => rfl
  | cons p m ih =>
      obtain ⟨k0, v0⟩ := p
      by_cases h0 : k0 = k
      · subst h0
        simp [mapDelete, mapGet, hks, ih]
      · simp [mapDelete, mapGet, h0, ih]

/-- Deletion only removes entries. -/
theorem mapDelete_map_fst_sublist (m : List (MeshKey × List Nat)) (k : MeshKey) :
    ((mapDelete m k).map Prod.fst).Sublist (m.map Prod.fst) := by
  induction m with
  | nil => exact List.Sublist.refl _
  | cons p m ih =>
      obtain ⟨k0, v0⟩ := p
      by_cases h : k0 = k
      · simpa [mapDelete, h] using ih.cons k0
      · simpa [mapDelete, h] using ih.cons₂ k0

/-- The empty group is well formed. -/
theorem wf_init (name : String) : (PhysicalGroup.init name).WellFormed := by
  refine ⟨List.nodup_nil, List.nodup_nil, ?_, ?_⟩ <;> intro k <;>
    simp [PhysicalGroup.init, mapGet]

/-- `AddMesh` preserves the invariant. -/
theorem wf_addMesh {g : PhysicalGroup} (h : g.WellFormed) (k : MeshKey) :
    (g.addMesh k).WellFormed := by
  obtain ⟨h1, h2, h3, h4⟩ := h
  by_cases hk : (mapGet g.meshFaces k).isSome = true
  · refine ⟨setAdd_nodup k h1, ?_, ?_, ?_⟩
    · show ((ensureEntry g.meshFaces k).map Prod.fst).Nodup
      rw [ensureEntry, if_pos hk]
      exact h2
    · intro k2
      show k2 ∈ setAdd g.meshes k ↔ (mapGet (ensureEntry g.meshFaces k) k2).isSome = true
      rw [ensureEntry, if_pos hk, mem_setAdd_iff]
      constructor
      · rintro (hm | rfl)
        · exact (h3 k2).mp hm
        · exact hk
      · intro hs
        exact Or.inl ((h3 k2).mpr hs)
    · intro k2
      show ((mapGet (ensureEntry g.meshFaces k) k2).getD []).Nodup
      rw [ensureEntry, if_pos hk]
      exact h4 k2
  · have hnone : mapGet g.meshFaces k = none := by
      cases hcase : mapGet g.meshFaces k with
      | none => rfl
      | some v => rw [hcase] at hk; simp at hk
    have hnotmem : k ∉ g.meshFaces.map Prod.fst := (mapGet_eq_none_iff _ _).mp hnone
    refine ⟨setAdd_nodup k h1, ?_, ?_, ?_⟩
    · show ((ensureEntry g.meshFaces k).map Prod.fst).Nodup
      rw [ensureEntry, if_neg hk]
      simp [List.nodup_append, h2, hnotmem]
    · intro k2
      show k2 ∈ setAdd g.meshes k ↔ (mapGet (ensureEntry g.meshFaces k) k2).isSome = true
      rw [ensureEntry, if_neg hk, mem_setAdd_iff, mapGet_append]
      by_cases h2k : k2 = k
      · subst h2k
        simp [hnone, mapGet]
      · cases hg : mapGet g.meshFaces k2 with
        | none =>
            have : k2 ∉ g.meshes := fun hm => by
              have := (h3 k2).mp hm
              rw [hg] at this
              simp at this
            have hks : ¬ k = k2 := fun hh => h2k (Eq.symm hh)
            simp [mapGet, this, h2k, hks]
        | some v =>
            have : k2 ∈ g.meshes := (h3 k2).mpr (by simp [hg])
            simp [this, hg]
    · intro k2
      show ((mapGet (ensureEntry g.meshFaces k) k2).getD []).Nodup
      rw [ensureEntry, if_neg hk, mapGet_append]
      cases hg : mapGet g.meshFaces k2 with
      | none =>
          by_cases h2k : k = k2 <;> simp [mapGet, h2k]
      | some v =>
          have := h4 k2
          rw [hg] at this
          simpa using this

/-- `AddMeshWithIndex` preserves the invariant. -/
theorem wf_addMeshWithIndex {g : PhysicalGroup} (h : g.WellFormed) (k : MeshKey) (f : Nat) :
    (g.addMeshWithIndex k f).WellFormed := by
  obtain ⟨h1, h2, h3, h4⟩ := wf_addMesh h k
  simp only [PhysicalGroup.addMesh] at h1 h2 h3 h4
  by_cases hf : f ∈ (mapGet (ensureEntry g.meshFaces k) k).getD []
  · have heq : g.addMeshWithIndex k f = g.addMesh k := by
      unfold PhysicalGroup.addMeshWithIndex PhysicalGroup.addMesh addFace
      simp only [if_pos hf]
    rw [heq]
    exact ⟨h1, h2, h3, h4⟩
  · have heq : (g.addMeshWithIndex k f).meshFaces
        = mapSet (ensureEntry g.meshFaces k) k
            ((mapGet (ensureEntry g.meshFaces k) k).getD [] ++ [f]) := by
      unfold PhysicalGroup.addMeshWithIndex addFace
      simp only [if_neg hf]
    have hmeshes : (g.addMeshWithIndex k f).meshes = setAdd g.meshes k := rfl
    have hkSome : (mapGet (ensureEntry g.meshFaces k) k).isSome = true :=
      (h3 k).mp (mem_setAdd_self _ _)
    refine ⟨?_, ?_, ?_, ?_⟩
    · rw [hmeshes]
      exact h1
    · rw [heq, mapSet_map_fst_of_isSome _ _ _ hkSome]
      exact h2
    · intro k2
      rw [hmeshes, heq]
      by_cases h2k : k2 = k
      · subst h2k
        simp [mem_setAdd_self, mapGet_mapSet_self]
      · rw [mapGet_mapSet_ne _ _ _ _ h2k]
        exact h3 k2
    · intro k2
      rw [heq]
      by_cases h2k : k2 = k
      · subst h2k
        rw [mapGet_mapSet_self]
        have hnd := h4 k2
        simp only [Option.getD_some]
        simp [List.nodup_append, hnd, hf]
      · rw [mapGet_mapSet_ne _ _ _ _ h2k]
        exact h4 k2

/-- `RemoveMesh` preserves the invariant. -/
theorem wf_removeMesh {g : PhysicalGroup} (h : g.WellFormed) (k : MeshKey) :
    (g.removeMesh k).WellFormed := by
  obtain ⟨h1, h2, h3, h4⟩ := h
  refine ⟨h1.filter _, (h2.sublist (mapDelete_map_fst_sublist _ _)), ?_, ?_⟩
  · intro k2
    show k2 ∈ g.meshes.filter (fun k0 => k0 ≠ k)
        ↔ (mapGet (mapDelete g.meshFaces k) k2).isSome = true
    by_cases h2k : k2 = k
    · subst h2k
      simp [mapGet_mapDelete_self, List.mem_filter]
    · rw [mapGet_mapDelete_ne _ _ _ h2k]
      simp [List.mem_filter, h2k, h3 k2]
  · intro k2
    show ((mapGet (mapDelete g.meshFaces k) k2).getD []).Nodup
    by_cases h2k : k2 = k
    · subst h2k
      simp [mapGet_mapDelete_self]
    · rw [mapGet_mapDelete_ne _ _ _ h2k]
      exact h4 k2

/-- `Clear` restores the empty invariant. -/
theorem wf_clear {g : PhysicalGroup} (_h : g.WellFormed) : g.clear.WellFormed := by
  refine ⟨List.nodup_nil, List.nodup_nil, ?_, ?_⟩ <;> intro k <;>
    simp [PhysicalGroup.clear, mapGet]

/-- Every reachable group state is well formed. -/
theorem reachable_wf {g : PhysicalGroup} (h : g.Reachable) : g.WellFormed := by
  induction h with
  | init name => exact wf_init name
  | addMesh k _ ih => exact wf_addMesh ih k
  | addMeshWithIndex k f _ ih => exact wf_addMeshWithIndex ih k f
  | removeMesh k _ ih => exact wf_removeMesh ih k
  | clear _ ih => exact wf_clear ih
  | setName n _ ih => exact ih
  | setColor c _ ih => exact ih

/-- Looking up the key just inserted by `addFace` finds the face. -/
theorem mapGet_addFace_self (m : List (MeshKey × List Nat)) (k : MeshKey) (f : Nat) :
    ∃ l, mapGet (addFace m k f) k = some l ∧ f ∈ l := by
  unfold addFace
  by_cases hf : f ∈ (mapGet (ensureEntry m k) k).getD []
  · rw [if_pos hf]
    cases hcase : mapGet (ensureEntry m k) k with
    | none =>
        rw [hcase] at hf
        simp at hf
    | some l =>
        rw [hcase] at hf
        exact ⟨l, rfl, by simpa using hf⟩
  · rw [if_neg hf]
    exact ⟨_, mapGet_mapSet_self _ _ _, by simp⟩

/-- `addFace` is idempotent. -/
theorem addFace_idem (m : List (MeshKey × List Nat)) (k : MeshKey) (f : Nat) :
    addFace (addFace m k f) k f = addFace m k f := by
  obtain ⟨l, hget, hf⟩ := mapGet_addFace_self m k f
  have hsome : (mapGet (addFace m k f) k).isSome = true := by
    rw [hget]
    rfl
  conv_lhs => rw [addFace]
  rw [ensureEntry, if_pos hsome, hget]
  simp [hf]

/-- C9: `AddMeshWithIndex` is idempotent, and on every reachable group state
the stored per-instance face-index lists are free of duplicates. -/
theorem addMeshWithIndex_idempotent_dedup :
    (∀ (g : PhysicalGroup) (k : MeshKey) (f : Nat),
        (g.addMeshWithIndex k f).addMeshWithIndex k f = g.addMeshWithIndex k f)
  ∧ (∀ (g : PhysicalGroup), g.Reachable →
        ∀ k, (g.getMeshFaceIndices k).Nodup) := by
  constructor
  · intro g k f
    simp only [PhysicalGroup.addMeshWithIndex]
    rw [setAdd_idem, addFace_idem]
  · intro g h k
    exact (reachable_wf h).2.2.2 k

/-- C9 witness: idempotency and deduplication at a concrete group state. -/
theorem addMeshWithIndex_idempotent_dedup_check :
    ((PhysicalGroup.init "g").addMeshWithIndex (0, 0) 1).addMeshWithIndex (0, 0) 1
      = (PhysicalGroup.init "g").addMeshWithIndex (0, 0) 1
  ∧ (((PhysicalGroup.init "g").addMeshWithIndex (0, 0) 1).getMeshFaceIndices (0, 0)).Nodup :=
  ⟨addMeshWithIndex_idempotent_dedup.1 (PhysicalGroup.init "g") (0, 0) 1,
   addMeshWithIndex_idempotent_dedup.2 ((PhysicalGroup.init "g").addMeshWithIndex (0, 0) 1)
     (.addMeshWithIndex (0, 0) 1 (.init "g")) (0, 0)⟩

/-- C10: on every reachable group state the touched-key set and the face map
are duplicate-free and agree: `ContainsMesh` is true exactly when a face-map
entry exists, and `GetMeshFaceIndices` returns the empty list for keys
outside the group. -/
theorem physicalGroup_membership_invariant (g : PhysicalGroup) (h : g.Reachable) :
    g.meshes.Nodup
  ∧ (g.meshFaces.map Prod.fst).Nodup
  ∧ (∀ k, g.containsMesh k = true ↔ (mapGet g.meshFaces k).isSome = true)
  ∧ (∀ k, g.containsMesh k = false → g.getMeshFaceIndices k = []) := by
  obtain ⟨h1, h2, h3, h4⟩ := reachable_wf h
  have hcont : ∀ k, g.containsMesh k = true ↔ k ∈ g.meshes := by
    intro k
    simp [PhysicalGroup.containsMesh]
  refine ⟨h1, h2, ?_, ?_⟩
  · intro k
    rw [hcont k]
    exact h3 k
  · intro k hk
    have hnm : k ∉ g.meshes := by
      intro hm
      rw [← hcont k] at hm
      rw [hk] at hm
      exact Bool.false_ne_true hm
    have hnone : mapGet g.meshFaces k = none := by
      cases hcase : mapGet g.meshFaces k with
      | none => rfl
      | some v =>
          exact absurd ((h3 k).mpr (by rw [hcase]; rfl)) hnm
    simp [PhysicalGroup.getMeshFaceIndices, hnone]

/-- C10 witness: the membership invariant at a concrete reachable state. -/
theorem physicalGroup_membership_invariant_check :
    (((PhysicalGroup.init "g").addMesh (0, 0)).containsMesh (0, 0) = true
      ↔ (mapGet ((PhysicalGroup.init "g").addMesh (0, 0)).meshFaces (0, 0)).isSome = true)
  ∧ ((PhysicalGroup.init "g").addMesh (0, 0)).meshes.Nodup :=
  ⟨(physicalGroup_membership_invariant ((PhysicalGroup.init "g").addMesh (0, 0))
      (.addMesh (0, 0) (.init "g"))).2.2.1 (0, 0),
   (physicalGroup_membership_invariant ((PhysicalGroup.init "g").addMesh (0, 0))
      (.addMesh (0, 0) (.init "g"))).1⟩

end Ayrton
